import Mathlib

/-!
Verification of the syn-blog-format library (src/lib.rs).

Strings are modelled as lists of characters (`Str`).  Rust's `String::trim`
trims Unicode `White_Space` characters, modelled by `isRustWs`.  Rust's
`BufRead::read_line` returns the number of BYTES read and includes the
terminating newline in the returned line; we model the byte count with
`Char.utf8Size` sums (`byteLen`) and model the reader by splitting the file
content into terminator-inclusive lines.
-/

namespace SynBlog

abbrev Str := List Char

/-- Unicode White_Space property, as used by Rust `char::is_whitespace`
(and hence `str::trim`). -/
def isRustWs (c : Char) : Bool :=
  let n := c.toNat
  n = 0x9 || n = 0xA || n = 0xB || n = 0xC || n = 0xD || n = 0x20 ||
  n = 0x85 || n = 0xA0 || n = 0x1680 || (0x2000 ≤ n && n ≤ 0x200A) ||
  n = 0x2028 || n = 0x2029 || n = 0x202F || n = 0x205F || n = 0x3000

/-- Drop leading Rust whitespace (`str::trim_start`). -/
def rustTrimStart (s : Str) : Str := s.dropWhile isRustWs

/-- Drop trailing Rust whitespace (`str::trim_end`). -/
def rustTrimEnd (s : Str) : Str := (s.reverse.dropWhile isRustWs).reverse

/-- Rust `str::trim`: drop leading and trailing whitespace. -/
def rustTrim (s : Str) : Str := rustTrimEnd (rustTrimStart s)

/-- Rust `str::split` with a one-character separator: `"".split` gives
`[""]`, separators at the ends give empty segments. -/
def splitOnChar (sep : Char) : Str → List Str
  | [] => [[]]
  | c :: cs =>
    if c = sep then [] :: splitOnChar sep cs
    else
      match splitOnChar sep cs with
      | [] => [[c]]
      | r :: rs => (c :: r) :: rs

/-- UTF-8 byte length of a character list, matching the byte counts Rust's
`read_line` reports. -/
def byteLen (s : Str) : Nat := (s.map Char.utf8Size).sum

/-- Rust `u64::from_str`: an optional leading `+`, then one or more ASCII
digits, value below `2^64`; anything else is a parse error (`none`). -/
def parseU64 (s : Str) : Option Nat :=
  let s2 := match s with
    | '+' :: rest => rest
    | other => other
  if s2 = [] then none
  else if s2.all (fun c => c.isDigit) then
    let v := s2.foldl (fun acc c => acc * 10 + (c.toNat - 48)) 0
    if v < 2 ^ 64 then some v else none
  else none

/-- Rust `str::starts_with` on character lists. -/
def strStartsWith : Str → Str → Bool
  | [], _ => true
  | _ :: _, [] => false
  | p :: ps, c :: cs => p == c && strStartsWith ps cs

/-- The element variant type `SynElement` from src/lib.rs. -/
inductive SynElement where
  | Text (text : Str)
  | Code (text : Str)
  | Heading (text : Str)
  | Image (path : Str) (alt : Str) (style : Str)
  | LineH
deriving DecidableEq, Repr

/-- The document type `SynFile` from src/lib.rs.  `posted` is a `u64`,
modelled as `Nat` (every value the parser produces is below `2^64`). -/
structure SynFile where
  title : Str
  tags : List Str
  posted : Nat
  summary : Str
  elements : List SynElement
deriving DecidableEq, Repr

/-- `SynElement::parse_line`: trim the line, then classify in order
`---` / `#` / `.img ` / `.code ` / free text; the only failure is an
`.img` line whose remainder does not split into exactly 3 pipe segments. -/
def parseLine (line : Str) : Option SynElement :=
  let line := rustTrim line
  if line = "---".data then some SynElement.LineH
  else if strStartsWith "#".data line then some (SynElement.Heading (line.drop 1))
  else if strStartsWith ".img ".data line then
    let sections := splitOnChar '|' (line.drop 5)
    if sections.length = 3 then
      some (SynElement.Image (sections.getD 0 []) (sections.getD 1 []) (sections.getD 2 []))
    else none
  else if strStartsWith ".code ".data line then some (SynElement.Code (line.drop 6))
  else some (SynElement.Text line)

/-- Rust `str::replace("\n", "<br>")`, character by character. -/
def replaceNlBr : Str → Str
  | [] => []
  | c :: cs => if c = '\n' then "<br>".data ++ replaceNlBr cs else c :: replaceNlBr cs

/-- `SynElement::generate_tag`: the HTML fragment for one element; no
escaping of payloads anywhere. -/
def generateTag : SynElement → Str
  | SynElement.Text t => "<p>".data ++ replaceNlBr t ++ "</p>".data
  | SynElement.Code t => "<p class=\x27code\x27>".data ++ t ++ "</p>".data
  | SynElement.Heading t => "<h2>".data ++ t ++ "</h2>".data
  | SynElement.Image p a s =>
      "<img src=\x27".data ++ p ++ "\x27 style=\x27".data ++ s ++ "\x27>".data ++ a ++ "</img>".data
  | SynElement.LineH => "<div class=\x27hline\x27></div>".data

/-- `SynElement::generate_line`: the wire form of one element. -/
def generateLine : SynElement → Str
  | SynElement.Text t => t
  | SynElement.Code t => ".code ".data ++ t
  | SynElement.Heading t => "#".data ++ t
  | SynElement.Image p a s => ".img ".data ++ p ++ "|".data ++ a ++ "|".data ++ s
  | SynElement.LineH => "---".data

/-- One `read_line` call on in-memory content: returns the next line
INCLUDING its terminating newline (if any) and the remaining content.
At end of input it returns the empty line (Rust `read_line` returns
`Ok(0)` there, never an error on in-memory text). -/
def readLine : Str → Str × Str
  | [] => ([], [])
  | c :: cs =>
    if c = '\n' then ([c], cs)
    else
      let p := readLine cs
      (c :: p.1, p.2)

/-- All the lines `read_line` would successively return on `s` (each
including its newline terminator; the final line may lack one). -/
def splitLines : Str → List Str
  | [] => []
  | c :: cs =>
    if c = '\n' then ['\n'] :: splitLines cs
    else
      match splitLines cs with
      | [] => [[c]]
      | l :: ls => (c :: l) :: ls

/-- The body loop of `SynFile::load_file`: each iteration reads one line and
appends it to the shared `line` buffer; when the read returned at most one
byte (a bare newline, a final 1-byte line, or end of input) the buffer is
parsed, pushed on success, and cleared; end of input stops the loop after
that final flush.  `lines` is the sequence of reads (`splitLines` of the
remaining content); the `[]` case is the read that returns 0 bytes. -/
def bodyScan (buffer : Str) (lines : List Str) (acc : List SynElement) :
    List SynElement :=
  match lines with
  | [] => acc ++ (parseLine buffer).toList
  | l :: ls =>
    if byteLen l ≤ 1 then bodyScan [] ls (acc ++ (parseLine (buffer ++ l)).toList)
    else bodyScan (buffer ++ l) ls acc

/-- `SynFile::load_file` after a successful `File::open`, as a function of
the file content.  The four header reads mirror the Rust code exactly; note
that the Rust code clears the shared line buffer before each of the header
reads but NOT after reading the summary, so the body loop starts with the
summary line still in the buffer. -/
def parseDocument (content : Str) : SynFile :=
  let t1 := readLine content
  let title := rustTrim t1.1
  let t2 := readLine t1.2
  let tags := (splitOnChar ',' t2.1).map rustTrim
  let t3 := readLine t2.2
  let posted := (parseU64 (rustTrim t3.1)).getD 0
  let t4 := readLine t3.2
  let summary := rustTrim t4.1
  let elements := bodyScan t4.1 (splitLines t4.2) []
  ⟨title, tags, posted, summary, elements⟩

/-- `SynFile::load_file` including the `File::open` step: `none` models a
file that fails to open (the only `Err` path in the Rust code). -/
def loadFile (file : Option Str) : Option SynFile :=
  file.map parseDocument

/-- `SynFile::load_file_metadata` after a successful open: the same four
header reads as `load_file`, with `elements` left empty. -/
def parseMetadata (content : Str) : SynFile :=
  let t1 := readLine content
  let title := rustTrim t1.1
  let t2 := readLine t1.2
  let tags := (splitOnChar ',' t2.1).map rustTrim
  let t3 := readLine t2.2
  let posted := (parseU64 (rustTrim t3.1)).getD 0
  let t4 := readLine t3.2
  let summary := rustTrim t4.1
  ⟨title, tags, posted, summary, []⟩

/-- `SynFile::load_file_metadata` including the `File::open` step. -/
def loadFileMetadata (file : Option Str) : Option SynFile :=
  file.map parseMetadata

/-- `SynFile::save_file`: the text written for a document — the four header
lines, one blank line, then each element's wire line followed by a blank
line. -/
def saveFile (f : SynFile) : Str :=
  f.title ++ '\n' :: (List.intercalate ",".data f.tags) ++
    '\n' :: (Nat.repr f.posted).data ++
    '\n' :: f.summary ++ '\n' :: '\n' ::
    (f.elements.map (fun e => generateLine e ++ "\n\n".data)).flatten

example : parseLine "---".data = some SynElement.LineH := by decide
example : parseLine "#Big Title".data = some (SynElement.Heading "Big Title".data) := by decide
example : parseLine ".img test.png|alt|style".data =
    some (SynElement.Image "test.png".data "alt".data "style".data) := by decide
example : parseLine ".img a|b".data = none := by decide
example : parseLine "  hi  ".data = some (SynElement.Text "hi".data) := by decide
example : generateTag (SynElement.Text "a\nb".data) = "<p>a<br>b</p>".data := by decide
example : generateTag SynElement.LineH = "<div class=\x27hline\x27></div>".data := by decide
example : saveFile ⟨"t".data, ["a".data], 0, "s".data, []⟩ = "t\na\n0\ns\n\n".data := by decide
example : parseDocument "t\na,b\n7\ns\n\nHello\n\n".data =
    ⟨"t".data, ["a".data, "b".data], 7, "s".data,
     [SynElement.Text "s".data, SynElement.Text "Hello".data, SynElement.Text []]⟩ := by decide
example : parseDocument "".data =
    ⟨[], [[]], 0, [], [SynElement.Text []]⟩ := by decide

/-- The third header line `load_file` reads (with its terminator): the
`posted` field. -/
def thirdHeaderLine (content : Str) : Str :=
  (readLine (readLine (readLine content).2).2).1

/-- Side condition under which an element survives
`parse_line ∘ generate_line`: its wire line must be unchanged by whitespace
trimming, `Image` fields must not contain the `|` separator, and a `Text`
payload must not itself read as one of the other element forms. -/
def roundTrips : SynElement → Bool
  | SynElement.Text t =>
      (rustTrim t == t) && !(t == "---".data)
      && !(strStartsWith "#".data t) && !(strStartsWith ".img ".data t)
      && !(strStartsWith ".code ".data t)
  | SynElement.Code t => rustTrim (".code ".data ++ t) == ".code ".data ++ t
  | SynElement.Heading t => rustTrim ("#".data ++ t) == "#".data ++ t
  | SynElement.Image p a s =>
      decide ('|' ∉ p) && decide ('|' ∉ a) && decide ('|' ∉ s)
      && (rustTrim (".img ".data ++ p ++ "|".data ++ a ++ "|".data ++ s)
          == ".img ".data ++ p ++ "|".data ++ a ++ "|".data ++ s)
  | SynElement.LineH => true

/-- A small document with no body elements, used to exhibit the round-trip
failure. -/
def roundTripDoc : SynFile := ⟨"t".data, ["a".data], 0, "s".data, []⟩

/-- A body block given as its lines (without terminators), rendered with a
newline after each line. -/
def joinNl (b : List Str) : Str := (b.map (fun l => l ++ ['\n'])).flatten

/-- A block followed by its blank separator line, as written in a document
body. -/
def renderBlock (b : List Str) : Str := joinNl b ++ ['\n']

/-- A whole body: blocks each followed by one blank line. -/
def renderBlocks (bs : List (List Str)) : Str := (bs.map renderBlock).flatten

/-! Helper lemmas about the string model. -/

theorem readLine_no_newline {s : Str} (h : '\n' ∉ s) : readLine s = (s, []) := by
  induction s with
  | nil => rfl
  | cons c cs ih =>
    have hc : c ≠ '\n' := fun hc => h (hc ▸ List.mem_cons_self c cs)
    have hcs : '\n' ∉ cs := fun hm => h (List.mem_cons_of_mem c hm)
    simp [readLine, hc, ih hcs]

theorem readLine_line {l : Str} (h : '\n' ∉ l) (rest : Str) :
    readLine (l ++ '\n' :: rest) = (l ++ ['\n'], rest) := by
  induction l with
  | nil => rfl
  | cons c cs ih =>
    have hc : c ≠ '\n' := fun hc => h (hc ▸ List.mem_cons_self c cs)
    have hcs : '\n' ∉ cs := fun hm => h (List.mem_cons_of_mem c hm)
    simp [readLine, hc, ih hcs]

theorem splitLines_line {l : Str} (h : '\n' ∉ l) (rest : Str) :
    splitLines (l ++ '\n' :: rest) = (l ++ ['\n']) :: splitLines rest := by
  induction l with
  | nil => rfl
  | cons c cs ih =>
    have hc : c ≠ '\n' := fun hc => h (hc ▸ List.mem_cons_self c cs)
    have hcs : '\n' ∉ cs := fun hm => h (List.mem_cons_of_mem c hm)
    simp only [List.cons_append, splitLines, if_neg hc, List.append_eq, ih hcs]

theorem splitOnChar_ne_nil (sep : Char) (s : Str) : splitOnChar sep s ≠ [] := by
  cases s with
  | nil => simp [splitOnChar]
  | cons c cs =>
    by_cases hc : c = sep
    · simp [splitOnChar, hc]
    · simp only [splitOnChar, if_neg hc]
      cases splitOnChar sep cs <;> simp

theorem splitOnChar_no_sep {sep : Char} {s : Str} (h : sep ∉ s) :
    splitOnChar sep s = [s] := by
  induction s with
  | nil => rfl
  | cons c cs ih =>
    have hc : c ≠ sep := fun hc => h (hc ▸ List.mem_cons_self c cs)
    have hcs : sep ∉ cs := fun hm => h (List.mem_cons_of_mem c hm)
    simp [splitOnChar, hc, ih hcs]

theorem splitOnChar_append_sep {sep : Char} {p : Str} (rest : Str) (h : sep ∉ p) :
    splitOnChar sep (p ++ sep :: rest) = p :: splitOnChar sep rest := by
  induction p with
  | nil => simp [splitOnChar]
  | cons c cs ih =>
    have hc : c ≠ sep := fun hc => h (hc ▸ List.mem_cons_self c cs)
    have hcs : sep ∉ cs := fun hm => h (List.mem_cons_of_mem c hm)
    simp only [List.cons_append, splitOnChar, if_neg hc, List.append_eq, ih hcs]

theorem intercalate_cons_cons (sep x y : Str) (zs : List Str) :
    List.intercalate sep (x :: y :: zs) = x ++ sep ++ List.intercalate sep (y :: zs) := by
  simp [List.intercalate, List.intersperse]

theorem intercalate_single (sep x : Str) : List.intercalate sep [x] = x := by
  simp [List.intercalate, List.intersperse]

theorem replaceNlBr_intercalate (t : Str) :
    replaceNlBr t = List.intercalate "<br>".data (splitOnChar '\n' t) := by
  induction t with
  | nil => simp [replaceNlBr, splitOnChar, intercalate_single]
  | cons c cs ih =>
    by_cases hc : c = '\n'
    · subst hc
      obtain ⟨r, rs, hrs⟩ : ∃ r rs, splitOnChar '\n' cs = r :: rs := by
        cases hq : splitOnChar '\n' cs with
        | nil => exact absurd hq (splitOnChar_ne_nil _ _)
        | cons r rs => exact ⟨r, rs, rfl⟩
      simp [replaceNlBr, splitOnChar, hrs, intercalate_cons_cons, ih]
    · obtain ⟨r, rs, hrs⟩ : ∃ r rs, splitOnChar '\n' cs = r :: rs := by
        cases hq : splitOnChar '\n' cs with
        | nil => exact absurd hq (splitOnChar_ne_nil _ _)
        | cons r rs => exact ⟨r, rs, rfl⟩
      have key : List.intercalate "<br>".data ((c :: r) :: rs) =
          c :: List.intercalate "<br>".data (r :: rs) := by
        cases rs with
        | nil => simp [intercalate_single]
        | cons y ys => simp [intercalate_cons_cons]
      simp [replaceNlBr, splitOnChar, hc, hrs, ih, key]

theorem rustTrimEnd_append_ws {c : Char} (hc : isRustWs c = true) (s : Str) :
    rustTrimEnd (s ++ [c]) = rustTrimEnd s := by
  simp [rustTrimEnd, List.reverse_append, List.dropWhile, hc]

theorem rustTrim_append_ws {c : Char} (hc : isRustWs c = true) (s : Str) :
    rustTrim (s ++ [c]) = rustTrim s := by
  induction s with
  | nil => simp [rustTrim, rustTrimStart, rustTrimEnd, List.dropWhile, hc]
  | cons a as ih =>
    by_cases ha : isRustWs a
    · simpa [rustTrim, rustTrimStart, List.dropWhile, ha] using ih
    · have h1 : rustTrimStart ((a :: as) ++ [c]) = (a :: as) ++ [c] := by
        simp [rustTrimStart, List.dropWhile, ha]
      have h2 : rustTrimStart (a :: as) = a :: as := by
        simp [rustTrimStart, List.dropWhile, ha]
      rw [rustTrim, h1, rustTrim, h2, rustTrimEnd_append_ws hc]

theorem rustTrim_append_two_nl (s : Str) :
    rustTrim (s ++ ['\n', '\n']) = rustTrim s := by
  have h : s ++ ['\n', '\n'] = (s ++ ['\n']) ++ ['\n'] := by simp
  rw [h, rustTrim_append_ws (by decide), rustTrim_append_ws (by decide)]

theorem dashesLit : "---".data = ['-', '-', '-'] := rfl

theorem hashLit : "#".data = ['#'] := rfl

theorem imgLit : ".img ".data = ['.', 'i', 'm', 'g', ' '] := rfl

theorem codeLit : ".code ".data = ['.', 'c', 'o', 'd', 'e', ' '] := rfl

theorem pipeLit : "|".data = ['|'] := rfl

theorem byteLen_append (a b : Str) : byteLen (a ++ b) = byteLen a + byteLen b := by
  simp [byteLen]

theorem byteLen_pos {l : Str} (h : l ≠ []) : 1 ≤ byteLen l := by
  cases l with
  | nil => exact absurd rfl h
  | cons c cs =>
    have := c.utf8Size_pos
    simp [byteLen]
    omega

theorem byteLen_line_gt_one {l : Str} (h : l ≠ []) : ¬ byteLen (l ++ ['\n']) ≤ 1 := by
  rw [byteLen_append]
  have := byteLen_pos h
  have hn : byteLen ['\n'] = 1 := by decide
  omega

/-! ## C8 — generate_tag is total and produces the exact fragments. -/

/-- C8: `generate_tag` never fails (it is a total function of the model) and
returns exactly the documented fragment for each element kind: `Text`
payloads get every newline replaced by `<br>` inside `<p>...</p>`, `Code`
uses `<p class='code'>`, `Heading` uses `<h2>`, `Image` renders its alt text
as element content of a non-self-closing `<img>` tag, and `LineH` is the
fixed divider; no payload is HTML-escaped. -/
theorem c8_generate_tag_exact (t p a s : Str) :
    generateTag (SynElement.Text t) =
      "<p>".data ++ List.intercalate "<br>".data (splitOnChar '\n' t) ++ "</p>".data
    ∧ generateTag (SynElement.Code t) = "<p class=\x27code\x27>".data ++ t ++ "</p>".data
    ∧ generateTag (SynElement.Heading t) = "<h2>".data ++ t ++ "</h2>".data
    ∧ generateTag (SynElement.Image p a s) =
      "<img src=\x27".data ++ p ++ "\x27 style=\x27".data ++ s ++ "\x27>".data ++ a ++ "</img>".data
    ∧ generateTag SynElement.LineH = "<div class=\x27hline\x27></div>".data := by
  refine ⟨?_, rfl, rfl, rfl, rfl⟩
  simp [generateTag, replaceNlBr_intercalate]

/-! ## C9 — load_file_metadata reproduces load_file's header fields. -/

/-- C9: for every input text, the metadata-only parse returns a document
whose `title`, `tags`, `posted` and `summary` equal those of the full parse,
and whose `elements` sequence is empty. -/
theorem c9_metadata_matches_full_parse (content : Str) :
    (parseMetadata content).title = (parseDocument content).title
    ∧ (parseMetadata content).tags = (parseDocument content).tags
    ∧ (parseMetadata content).posted = (parseDocument content).posted
    ∧ (parseMetadata content).summary = (parseDocument content).summary
    ∧ (parseMetadata content).elements = [] :=
  ⟨rfl, rfl, rfl, rfl, rfl⟩

/-! ## C7 — an unparsable posted field defaults to 0, never a failure. -/

/-- C7: whenever the third header line does not parse as an unsigned 64-bit
integer (including an empty or missing line), the parse still succeeds (the
model is a total function) and the resulting document's `posted` field is 0. -/
theorem c7_unparsable_posted_defaults_zero (content : Str)
    (h : parseU64 (rustTrim (thirdHeaderLine content)) = none) :
    (parseDocument content).posted = 0 := by
  show (parseU64 (rustTrim (thirdHeaderLine content))).getD 0 = 0
  rw [h]
  rfl

/-- C7 witness: a concrete header whose third line is `notanumber`. -/
theorem c7_unparsable_posted_defaults_zero_witness :
    parseU64 (rustTrim (thirdHeaderLine "t\na,b\nnotanumber\ns\n".data)) = none
    ∧ (parseDocument "t\na,b\nnotanumber\ns\n".data).posted = 0 :=
  ⟨by decide, c7_unparsable_posted_defaults_zero _ (by decide)⟩

/-! ## C3 — truncated headers do NOT fail: there is no TruncatedHeader path. -/

/-- C3 counterexample: a text with a single header line (fewer than 4) is
parsed successfully into a `Document`; `load_file` does not fail.  In the
Rust code `read_line` returns `Ok(0)` at end of input, so the missing
header lines are simply read as empty strings. -/
theorem c3_counterexample_one_line_succeeds :
    loadFile (some "Only a title".data) =
      some ⟨"Only a title".data, [[]], 0, [], [SynElement.Text []]⟩
    ∧ loadFile (some "Only a title".data) ≠ none := by
  constructor <;> decide

/-- C3 amended: `parse_document` never fails on a truncated header.  For
any content with no newline at all (a single header line), the load
succeeds and the missing fields default: the whole content becomes the
trimmed title, `tags` is the one empty tag, `posted` is 0, `summary` is
empty, and the body flush of the empty buffer leaves one empty `Text`. -/
theorem c3_truncated_header_still_succeeds (content : Str)
    (h : '\n' ∉ content) :
    loadFile (some content) =
      some ⟨rustTrim content, [[]], 0, [], [SynElement.Text []]⟩ := by
  have h1 : readLine content = (content, []) := readLine_no_newline h
  show some (parseDocument content) = _
  unfold parseDocument
  rw [h1]
  rfl

/-- C3 amended witness at the concrete one-line text `hello`. -/
theorem c3_truncated_header_still_succeeds_witness :
    '\n' ∉ "hello".data
    ∧ loadFile (some "hello".data) =
      some ⟨rustTrim "hello".data, [[]], 0, [], [SynElement.Text []]⟩ :=
  ⟨by decide, c3_truncated_header_still_succeeds _ (by decide)⟩

/-! ## C1 — the save/load round trip is broken by the line-buffer bug. -/

/-- C1: save followed by load does NOT reproduce the document.  `load_file`
never clears the shared line buffer after reading the summary, so the
summary line is re-parsed as the first body element, and the final
end-of-input flush parses the then-empty buffer into a further empty `Text`
element. -/
theorem c1_save_load_round_trip_fails :
    parseDocument (saveFile roundTripDoc) ≠ roundTripDoc
    ∧ parseDocument (saveFile roundTripDoc) =
      ⟨"t".data, ["a".data], 0, "s".data,
       [SynElement.Text "s".data, SynElement.Text []]⟩ := by
  constructor <;> decide

/-! ## C2 — element round trip: counterexample and amended statement. -/

/-- C2 counterexample: the element `Text("---")` does not survive the
round trip — its generated line is `---`, which `parse_line` classifies
as `LineH`. -/
theorem c2_counterexample_text_dashes :
    parseLine (generateLine (SynElement.Text "---".data)) ≠
      some (SynElement.Text "---".data)
    ∧ parseLine (generateLine (SynElement.Text "---".data)) = some SynElement.LineH := by
  constructor <;> decide

/-- C2 amended: `parse_line (generate_line e) = e` for every element `e`
satisfying `roundTrips`: `LineH` always; `Code`/`Heading`/`Image` whenever
their wire line carries no leading/trailing whitespace into the trim (in
particular a `Code` payload may not be empty or end in whitespace) and
`Image` fields contain no `|`; `Text` whenever its payload is trim-stable
and not itself classifiable as `---`, `#...`, `.img ...` or `.code ...`. -/
theorem c2_amended_round_trip (e : SynElement) (h : roundTrips e = true) :
    parseLine (generateLine e) = some e := by
  cases e with
  | LineH => decide
  | Text t =>
    simp only [roundTrips, Bool.and_eq_true, Bool.not_eq_true', beq_iff_eq,
      beq_eq_false_iff_ne, ne_eq] at h
    obtain ⟨⟨⟨⟨h1, h2⟩, h3⟩, h4⟩, h5⟩ := h
    simp [parseLine, generateLine, h1, h2, h3, h4, h5]
  | Heading t =>
    simp only [roundTrips, beq_iff_eq, hashLit, List.cons_append,
      List.nil_append] at h
    simp [parseLine, generateLine, h, hashLit, dashesLit, strStartsWith]
  | Code t =>
    simp only [roundTrips, beq_iff_eq, codeLit, List.cons_append,
      List.nil_append] at h
    simp [parseLine, generateLine, h, codeLit, dashesLit, imgLit, strStartsWith]
  | Image p a s =>
    simp only [roundTrips, Bool.and_eq_true, beq_iff_eq, decide_eq_true_eq,
      imgLit, pipeLit, List.cons_append, List.nil_append, List.append_assoc] at h
    obtain ⟨⟨⟨h1, h2⟩, h3⟩, h4⟩ := h
    have hsplit : splitOnChar '|' (p ++ '|' :: (a ++ '|' :: s)) = [p, a, s] := by
      rw [splitOnChar_append_sep _ h1, splitOnChar_append_sep _ h2,
        splitOnChar_no_sep h3]
    simp [parseLine, generateLine, h4, imgLit, pipeLit, dashesLit,
      strStartsWith, List.append_assoc, hsplit]

/-- C2 amended witness: a concrete image element that satisfies the side
condition and round-trips. -/
theorem c2_amended_round_trip_witness :
    roundTrips (SynElement.Image "test.png".data "A test image!".data "width:100%".data) = true
    ∧ parseLine (generateLine
        (SynElement.Image "test.png".data "A test image!".data "width:100%".data)) =
      some (SynElement.Image "test.png".data "A test image!".data "width:100%".data) :=
  ⟨by decide, c2_amended_round_trip _ (by decide)⟩

/-! ## C10 — adjacent non-blank lines accumulate into one element. -/

/-- C10: in the body scanner, two adjacent non-blank lines followed by a
blank line are accumulated into ONE candidate joined by the newline
character, flushed only at the blank line, and (for free-text lines) yield
a single `Text` element with an embedded newline — not two elements. -/
theorem c10_adjacent_lines_one_text (l1 l2 rest : Str) (acc : List SynElement)
    (h1 : l1 ≠ []) (h2 : l2 ≠ [])
    (hn1 : '\n' ∉ l1) (hn2 : '\n' ∉ l2)
    (ht : rustTrim (l1 ++ '\n' :: l2) = l1 ++ '\n' :: l2)
    (hp1 : strStartsWith "#".data (l1 ++ '\n' :: l2) = false)
    (hp2 : strStartsWith ".img ".data (l1 ++ '\n' :: l2) = false)
    (hp3 : strStartsWith ".code ".data (l1 ++ '\n' :: l2) = false) :
    bodyScan [] (splitLines (l1 ++ '\n' :: (l2 ++ '\n' :: '\n' :: rest))) acc
      = bodyScan [] (splitLines rest) (acc ++ [SynElement.Text (l1 ++ '\n' :: l2)]) := by
  have hne : (l1 ++ '\n' :: l2) ≠ "---".data := by
    intro he
    have hm : '\n' ∈ l1 ++ '\n' :: l2 :=
      List.mem_append_right _ (List.mem_cons_self _ _)
    rw [he] at hm
    simp [dashesLit] at hm
  have hcand : l1 ++ ['\n'] ++ (l2 ++ ['\n']) ++ ['\n'] =
      (l1 ++ '\n' :: l2) ++ ['\n', '\n'] := by simp
  have htrim : rustTrim (l1 ++ ['\n'] ++ (l2 ++ ['\n']) ++ ['\n']) =
      l1 ++ '\n' :: l2 := by
    rw [hcand, rustTrim_append_two_nl, ht]
  have hparse : parseLine (l1 ++ ['\n'] ++ (l2 ++ ['\n']) ++ ['\n']) =
      some (SynElement.Text (l1 ++ '\n' :: l2)) := by
    simp only [parseLine]
    rw [htrim, if_neg hne, hp1, hp2, hp3]
    simp
  have hb : byteLen ['\n'] ≤ 1 := by decide
  rw [splitLines_line hn1, splitLines_line hn2]
  have hnl : splitLines ('\n' :: rest) = ['\n'] :: splitLines rest := by
    simp [splitLines]
  rw [hnl]
  simp only [bodyScan, byteLen_line_gt_one h1, byteLen_line_gt_one h2, hb,
    if_true, if_false, ite_false, ite_true, List.nil_append]
  rw [hparse]
  rfl

/-- C10 witness at the two free-text lines `aa` and `bb`. -/
theorem c10_adjacent_lines_one_text_witness :
    bodyScan [] (splitLines ("aa".data ++ '\n' :: ("bb".data ++ '\n' :: '\n' :: []))) []
      = bodyScan [] (splitLines [])
          ([] ++ [SynElement.Text ("aa".data ++ '\n' :: "bb".data)]) :=
  c10_adjacent_lines_one_text "aa".data "bb".data [] [] (by decide) (by decide)
    (by decide) (by decide) (by decide) (by decide) (by decide) (by decide)

/-! ## C6 — malformed blocks are dropped, valid ones preserved in order. -/

/-- The elements field of a parsed document, unfolded: the body scan starts
with the summary line still in the buffer. -/
theorem parseDocument_elements (content : Str) :
    (parseDocument content).elements =
      bodyScan (readLine (readLine (readLine (readLine content).2).2).2).1
        (splitLines (readLine (readLine (readLine (readLine content).2).2).2).2)
        [] := rfl

theorem splitLines_newline (rest : Str) :
    splitLines ('\n' :: rest) = ['\n'] :: splitLines rest := by
  simp [splitLines]

/-- Scanning one block then a blank line: every line of the block is
accumulated into the buffer, and the blank line flushes the buffer through
`parse_line`, appending the element on success and nothing on failure. -/
theorem bodyScan_lines (b : List Str) (buffer rest : Str) (acc : List SynElement)
    (hb : ∀ l ∈ b, l ≠ [] ∧ '\n' ∉ l) :
    bodyScan buffer (splitLines (joinNl b ++ '\n' :: rest)) acc =
      bodyScan [] (splitLines rest)
        (acc ++ (parseLine (buffer ++ (joinNl b ++ ['\n']))).toList) := by
  revert hb
  induction b generalizing buffer with
  | nil =>
    intro hb
    have hb1 : byteLen ['\n'] ≤ 1 := by decide
    simp only [joinNl, List.map_nil, List.flatten_nil, List.nil_append]
    rw [splitLines_newline]
    simp only [bodyScan, hb1, if_true, ite_true]
  | cons l ls ih =>
    intro hb
    obtain ⟨hl, hln⟩ := hb l (List.mem_cons_self _ _)
    have hb2 : ∀ x ∈ ls, x ≠ [] ∧ '\n' ∉ x := fun x hx =>
      hb x (List.mem_cons_of_mem _ hx)
    have hstep : joinNl (l :: ls) ++ '\n' :: rest =
        l ++ '\n' :: (joinNl ls ++ '\n' :: rest) := by
      simp [joinNl, List.append_assoc]
    rw [hstep, splitLines_line hln]
    simp only [bodyScan, byteLen_line_gt_one hl, if_false, ite_false]
    rw [ih (buffer ++ (l ++ ['\n'])) hb2]
    have harr : (buffer ++ (l ++ ['\n'])) ++ (joinNl ls ++ ['\n']) =
        buffer ++ (joinNl (l :: ls) ++ ['\n']) := by
      simp [joinNl, List.append_assoc]
    rw [harr]

/-- Scanning a whole body of blocks: each block contributes its parsed
element when `parse_line` succeeds and is silently dropped when it fails,
in order; the final end-of-input read flushes the empty buffer into an
empty `Text`. -/
theorem bodyScan_blocks (bs : List (List Str)) (acc : List SynElement)
    (hbs : ∀ b ∈ bs, ∀ l ∈ b, l ≠ [] ∧ '\n' ∉ l) :
    bodyScan [] (splitLines (renderBlocks bs)) acc =
      acc ++ bs.filterMap (fun b => parseLine (joinNl b ++ ['\n']))
          ++ [SynElement.Text []] := by
  revert hbs
  induction bs generalizing acc with
  | nil =>
    intro _
    have hp : parseLine [] = some (SynElement.Text []) := by decide
    simp [renderBlocks, splitLines, bodyScan, hp]
  | cons b bs ih =>
    intro hbs
    have hsplit : renderBlocks (b :: bs) = joinNl b ++ '\n' :: renderBlocks bs := by
      simp [renderBlocks, renderBlock, List.append_assoc]
    rw [hsplit,
      bodyScan_lines b [] (renderBlocks bs) acc (hbs b (List.mem_cons_self _ _)),
      ih _ (fun x hx => hbs x (List.mem_cons_of_mem _ hx))]
    cases hpb : parseLine (joinNl b ++ ['\n']) <;>
      simp [List.filterMap_cons, hpb, List.append_assoc]

/-- C6: for a well-formed document text (each header field and block line
free of embedded newlines, blocks of non-empty lines), parsing always
succeeds and the elements are exactly: the flush of the echoed summary
line, then for each body block its parsed element IF `parse_line` succeeds
on it — a malformed `.img` block contributes nothing while the surrounding
valid elements keep their original order — then the empty `Text` from the
final end-of-input flush.  A failed per-block parse never aborts document
parsing. -/
theorem c6_malformed_block_skipped (title tags posted summary : Str)
    (bs : List (List Str))
    (hti : '\n' ∉ title) (hta : '\n' ∉ tags) (hpo : '\n' ∉ posted)
    (hsu : '\n' ∉ summary)
    (hbs : ∀ b ∈ bs, ∀ l ∈ b, l ≠ [] ∧ '\n' ∉ l) :
    (parseDocument (title ++ '\n' :: (tags ++ '\n' :: (posted ++ '\n' ::
        (summary ++ '\n' :: '\n' :: renderBlocks bs))))).elements =
      (parseLine (summary ++ ['\n', '\n'])).toList
        ++ bs.filterMap (fun b => parseLine (joinNl b ++ ['\n']))
        ++ [SynElement.Text []] := by
  rw [parseDocument_elements]
  simp only [readLine_line hti, readLine_line hta, readLine_line hpo,
    readLine_line hsu]
  rw [splitLines_newline]
  have hb1 : byteLen ['\n'] ≤ 1 := by decide
  simp only [bodyScan, hb1, if_true, ite_true, List.nil_append]
  rw [bodyScan_blocks bs _ hbs]
  have harr : (summary ++ ['\n']) ++ ['\n'] = summary ++ ['\n', '\n'] := by
    simp
  rw [harr]

/-- C6 witness: a concrete document whose middle block is a malformed
`.img` line (2 pipe segments): it is omitted, the valid `Hello` and `World`
blocks keep their order, and parsing does not abort. -/
theorem c6_malformed_block_skipped_witness :
    (parseDocument ("t".data ++ '\n' :: ("a".data ++ '\n' :: ("0".data ++ '\n' ::
        ("s".data ++ '\n' :: '\n' ::
          renderBlocks [["Hello".data], [".img a|b".data], ["World".data]]))))).elements =
      (parseLine ("s".data ++ ['\n', '\n'])).toList
        ++ [["Hello".data], [".img a|b".data], ["World".data]].filterMap
            (fun b => parseLine (joinNl b ++ ['\n']))
        ++ [SynElement.Text []] :=
  c6_malformed_block_skipped "t".data "a".data "0".data "s".data
    [["Hello".data], [".img a|b".data], ["World".data]]
    (by decide) (by decide) (by decide) (by decide) (by decide)

/-! ## C4 — classification order of parse_line on stripped input. -/

/-- C4: on a line already stripped of surrounding whitespace, `parse_line`
classifies by first match in order: exactly `---` gives `LineH`; a leading
`#` gives `Heading` of the untrimmed remainder; a leading `.img ` with
exactly three pipe segments gives `Image`; a leading `.code ` gives `Code`
of the remainder after the 6-character prefix; anything else gives the
verbatim `Text`. -/
theorem c4_classification_first_match (line : Str) (h : rustTrim line = line) :
    (line = "---".data → parseLine line = some SynElement.LineH)
    ∧ (line ≠ "---".data → strStartsWith "#".data line = true →
        parseLine line = some (SynElement.Heading (line.drop 1)))
    ∧ (line ≠ "---".data → strStartsWith "#".data line = false →
        strStartsWith ".img ".data line = true →
        ∀ p a s, splitOnChar '|' (line.drop 5) = [p, a, s] →
        parseLine line = some (SynElement.Image p a s))
    ∧ (line ≠ "---".data → strStartsWith "#".data line = false →
        strStartsWith ".img ".data line = false →
        strStartsWith ".code ".data line = true →
        parseLine line = some (SynElement.Code (line.drop 6)))
    ∧ (line ≠ "---".data → strStartsWith "#".data line = false →
        strStartsWith ".img ".data line = false →
        strStartsWith ".code ".data line = false →
        parseLine line = some (SynElement.Text line)) := by
  refine ⟨fun h1 => ?_, fun h1 h2 => ?_, fun h1 h2 h3 p a s h4 => ?_,
    fun h1 h2 h3 h4 => ?_, fun h1 h2 h3 h4 => ?_⟩
  · subst h1; decide
  · simp [parseLine, h, h1, h2]
  · simp [parseLine, h, h1, h2, h3, h4]
  · simp [parseLine, h, h1, h2, h3, h4]
  · simp [parseLine, h, h1, h2, h3, h4]

/-- C4 witness at the stripped line `#Big Title`. -/
theorem c4_classification_first_match_witness :
    rustTrim "#Big Title".data = "#Big Title".data
    ∧ parseLine "#Big Title".data = some (SynElement.Heading "Big Title".data) :=
  ⟨by decide,
   (c4_classification_first_match "#Big Title".data (by decide)).2.1
     (by decide) (by decide)⟩

/-! ## C5 — parse_line fails exactly on malformed .img lines. -/

/-- C5: on a line already stripped of surrounding whitespace (the input
contract of `parse_line`), the parse fails if and only if the line starts
with `.img ` and the remainder after the 5-character prefix does not split
on `|` into exactly 3 segments; every other line parses successfully. -/
theorem c5_failure_iff_malformed_img (line : Str) (h : rustTrim line = line) :
    parseLine line = none ↔
      (strStartsWith ".img ".data line = true
       ∧ (splitOnChar '|' (line.drop 5)).length ≠ 3) := by
  by_cases h1 : line = "---".data
  · subst h1
    decide
  · by_cases h2 : strStartsWith "#".data line = true
    · have h3 : strStartsWith ".img ".data line = false := by
        cases line with
        | nil => rfl
        | cons c cs =>
          simp only [hashLit, strStartsWith, Bool.and_eq_true, beq_iff_eq] at h2
          simp [imgLit, strStartsWith, ← h2.1]
      simp [parseLine, h, h1, h2, h3]
    · have h2f : strStartsWith "#".data line = false := by
        simpa using h2
      by_cases h3 : strStartsWith ".img ".data line = true
      · by_cases h4 : (splitOnChar '|' (line.drop 5)).length = 3
        · simp [parseLine, h, h1, h2f, h3, h4]
        · simp [parseLine, h, h1, h2f, h3, h4]
      · have h3f : strStartsWith ".img ".data line = false := by
          simpa using h3
        by_cases h5 : strStartsWith ".code ".data line = true
        · simp [parseLine, h, h1, h2f, h3f, h5]
        · have h5f : strStartsWith ".code ".data line = false := by
            simpa using h5
          simp [parseLine, h, h1, h2f, h3f, h5f]

/-- C5 witness at the stripped malformed line `.img a|b` (2 segments). -/
theorem c5_failure_iff_malformed_img_witness :
    rustTrim ".img a|b".data = ".img a|b".data
    ∧ (parseLine ".img a|b".data = none ↔
        (strStartsWith ".img ".data ".img a|b".data = true
         ∧ (splitOnChar '|' (".img a|b".data.drop 5)).length ≠ 3)) :=
  ⟨by decide, c5_failure_iff_malformed_img ".img a|b".data (by decide)⟩

end SynBlog
